import Mathlib

/-!
Verification development for the chat-event responder core:
a sliding-window rate limiter, an expiring TTL cache, and a
caching/retrying completion client, modelled as a shallow embedding.
Timestamps are exact rationals; the per-key timestamp maps and the cache
table are total functions with an explicit default, mirroring the
source's defaultdict / dict semantics.
-/

set_option autoImplicit false

/-- State of the sliding-window rate limiter (`RateLimiter` in
`utils/rate_limit.py`): a per-key list of recorded call timestamps and
the per-key time of the last allowed call. An absent key is the empty
list (`defaultdict(list)`), respectively `0` (`defaultdict(float)`). -/
structure RateLimiter where
  calls_per_minute : ℕ
  min_interval : ℚ
  call_times : String → List ℚ
  last_call : String → ℚ

/-- Constructor `RateLimiter.__init__`: computes `60.0 / calls_per_minute`,
which in the source raises `ZeroDivisionError` when `calls_per_minute = 0`;
the failure is modelled as `Except.error`. -/
def RateLimiter.init (calls_per_minute : ℕ) : Except String RateLimiter :=
  if calls_per_minute = 0 then
    Except.error "ZeroDivisionError: float division by zero"
  else
    Except.ok
      { calls_per_minute := calls_per_minute
        min_interval := 60 / (calls_per_minute : ℚ)
        call_times := fun _ => []
        last_call := fun _ => 0 }

/-- Method `RateLimiter.is_allowed`: prunes the key's timestamps to those
strictly newer than `now - 60`, rejects without recording when the pruned
count already reaches the limit, and otherwise appends `now` and allows.
The source prunes only when the key is present; with the empty-list
default, pruning an absent key is the identity, so the unconditional
prune here is equivalent. Returns the decision and the updated state. -/
def RateLimiter.is_allowed (rl : RateLimiter) (key : String) (now : ℚ) :
    Bool × RateLimiter :=
  let cutoff := now - 60
  let pruned := (rl.call_times key).filter (fun t => cutoff < t)
  if rl.calls_per_minute ≤ pruned.length then
    (false,
      { rl with call_times := fun k => if k = key then pruned else rl.call_times k })
  else
    (true,
      { rl with
          call_times := fun k => if k = key then pruned ++ [now] else rl.call_times k
          last_call := fun k => if k = key then now else rl.last_call k })

/-- Minimum of a list of rationals, `0` on the empty list; the source's
`min(valid_times)` is only reached on a nonempty list. -/
def listMin : List ℚ → ℚ
  | [] => 0
  | [t] => t
  | t :: u :: ts => min t (listMin (u :: ts))

/-- Method `RateLimiter.get_cooldown_seconds`: runs `is_allowed` (recording
the call as a side effect when allowed) and returns `0` if allowed;
otherwise re-filters the recorded timestamps and returns
`max 0 (60 - (now - oldest))`. The source reads the clock again for the
second filter; both reads are modelled by the same instant `now`. -/
def RateLimiter.get_cooldown_seconds (rl : RateLimiter) (key : String) (now : ℚ) :
    ℚ × RateLimiter :=
  let res := rl.is_allowed key now
  if res.1 then
    (0, res.2)
  else
    let cutoff := now - 60
    let valid_times := (res.2.call_times key).filter (fun t => cutoff < t)
    if valid_times = [] then
      (0, res.2)
    else
      (max 0 (60 - (now - listMin valid_times)), res.2)

/-- Iterated admission checks: runs `is_allowed` once per timestamp in the
given list, threading the limiter state, and collects the decisions. -/
def is_allowed_run : RateLimiter → String → List ℚ → List Bool × RateLimiter
  | rl, _, [] => ([], rl)
  | rl, key, t :: ts =>
    let r := rl.is_allowed key t
    let rest := is_allowed_run r.2 key ts
    (r.1 :: rest.1, rest.2)

/-- Pruning at an instant inside the window keeps every timestamp that is
at least the window's start. -/
lemma filter_window_id (t₀ now : ℚ) (l : List ℚ) (hnow : now < t₀ + 60)
    (hl : ∀ t ∈ l, t₀ ≤ t) : l.filter (fun t => now - 60 < t) = l := by
  refine List.filter_eq_self.mpr fun t ht => ?_
  have := hl t ht
  simp only [decide_eq_true_eq]
  linarith

/-- While the recorded timestamps together with the pending call times stay
inside one 60-second window and their total count is within the limit,
every check is allowed and the key's record grows by exactly the call
times, leaving other keys untouched. -/
lemma is_allowed_run_within (key : String) (t₀ : ℚ) :
    ∀ (ts : List ℚ) (rl : RateLimiter),
      (∀ t ∈ rl.call_times key, t₀ ≤ t ∧ t < t₀ + 60) →
      (∀ t ∈ ts, t₀ ≤ t ∧ t < t₀ + 60) →
      (rl.call_times key).length + ts.length ≤ rl.calls_per_minute →
      (is_allowed_run rl key ts).1 = List.replicate ts.length true ∧
      (is_allowed_run rl key ts).2.call_times key = rl.call_times key ++ ts ∧
      (is_allowed_run rl key ts).2.calls_per_minute = rl.calls_per_minute ∧
      ∀ k, k ≠ key → (is_allowed_run rl key ts).2.call_times k = rl.call_times k
  | [], rl, _, _, _ => by simp [is_allowed_run]
  | t :: ts, rl, hrec, hts, hcount => by
    have ht : t₀ ≤ t ∧ t < t₀ + 60 := hts t (List.mem_cons_self t ts)
    have hprune : (rl.call_times key).filter (fun s => t - 60 < s) = rl.call_times key :=
      filter_window_id t₀ t _ ht.2 (fun s hs => (hrec s hs).1)
    have hlt : ¬ rl.calls_per_minute ≤ (rl.call_times key).length := by
      simp only [List.length_cons] at hcount
      omega
    have hallow : rl.is_allowed key t =
        (true,
          { rl with
              call_times :=
                fun k => if k = key then
                  (rl.call_times key).filter (fun s => t - 60 < s) ++ [t]
                else rl.call_times k
              last_call := fun k => if k = key then t else rl.last_call k }) := by
      simp only [RateLimiter.is_allowed, hprune]
      rw [if_neg hlt]
    set rl' : RateLimiter :=
      { rl with
          call_times :=
            fun k => if k = key then
              (rl.call_times key).filter (fun s => t - 60 < s) ++ [t]
            else rl.call_times k
          last_call := fun k => if k = key then t else rl.last_call k } with hrl'
    have hrl'key : rl'.call_times key = rl.call_times key ++ [t] := by
      simp [hrl', hprune]
    have ih := is_allowed_run_within key t₀ ts rl'
      (by
        intro s hs
        rw [hrl'key] at hs
        rcases List.mem_append.mp hs with h | h
        · exact hrec s h
        · rcases List.mem_singleton.mp h with rfl
          exact ht)
      (fun s hs => hts s (List.mem_cons_of_mem t hs))
      (by
        have hcp : rl'.calls_per_minute = rl.calls_per_minute := rfl
        rw [hrl'key, hcp]
        simp only [List.length_append, List.length_cons, List.length_nil] at hcount ⊢
        omega)
    refine ⟨?_, ?_, ?_, ?_⟩
    · simp only [is_allowed_run, hallow, List.length_cons, List.replicate_succ]
      exact congrArg (true :: ·) ih.1
    · simp only [is_allowed_run, hallow]
      rw [ih.2.1, hrl'key, List.append_assoc]
      rfl
    · simp only [is_allowed_run, hallow]
      exact ih.2.2.1
    · intro k hk
      simp only [is_allowed_run, hallow]
      rw [ih.2.2.2 k hk]
      simp [hrl', hk]

/-- Minimum of a nonempty list is one of its elements. -/
lemma listMin_mem : ∀ l : List ℚ, l ≠ [] → listMin l ∈ l
  | [], h => absurd rfl h
  | [t], _ => by simp [listMin]
  | t :: u :: ts, _ => by
    simp only [listMin]
    rcases le_total t (listMin (u :: ts)) with h | h
    · rw [min_eq_left h]
      exact List.mem_cons_self t (u :: ts)
    · rw [min_eq_right h]
      exact List.mem_cons_of_mem t (listMin_mem (u :: ts) (by simp))

/-- C1: for a limit `L ≥ 1` and a key whose recorded sequence is empty, `L`
calls inside one 60-second window are all allowed, and a further call in
the same window is rejected; the rejected call leaves the limiter state
exactly unchanged (pruning, its only state effect, removes nothing here
since every recorded timestamp is still inside the window). -/
theorem rate_limiter_admits_limit_then_rejects
    (L : ℕ) (hL : 1 ≤ L) (rl : RateLimiter) (key : String)
    (hlim : rl.calls_per_minute = L) (h0 : rl.call_times key = [])
    (t₀ : ℚ) (ts : List ℚ) (hlen : ts.length = L)
    (hts : ∀ t ∈ ts, t₀ ≤ t ∧ t < t₀ + 60)
    (t' : ℚ) (ht'0 : t₀ ≤ t') (ht'1 : t' < t₀ + 60) :
    (is_allowed_run rl key ts).1 = List.replicate L true ∧
    ((is_allowed_run rl key ts).2.is_allowed key t').1 = false ∧
    ((is_allowed_run rl key ts).2.is_allowed key t').2 = (is_allowed_run rl key ts).2 := by
  have hrun := is_allowed_run_within key t₀ ts rl
    (by intro t ht; rw [h0] at ht; cases ht)
    hts
    (by rw [h0, hlim, hlen]; simp)
  set rl₁ := (is_allowed_run rl key ts).2 with hrl₁
  have hkey : rl₁.call_times key = ts := by rw [hrun.2.1, h0]; rfl
  have hcp : rl₁.calls_per_minute = L := by rw [hrun.2.2.1, hlim]
  have hprune : (rl₁.call_times key).filter (fun s => t' - 60 < s) = rl₁.call_times key := by
    rw [hkey]
    exact filter_window_id t₀ t' ts ht'1 (fun s hs => (hts s hs).1)
  have hge : rl₁.calls_per_minute ≤
      ((rl₁.call_times key).filter (fun s => t' - 60 < s)).length := by
    rw [hprune, hkey, hcp, hlen]
  refine ⟨by rw [hrun.1, hlen], ?_, ?_⟩
  · simp only [RateLimiter.is_allowed]
    rw [if_pos hge]
  · simp only [RateLimiter.is_allowed]
    rw [if_pos hge]
    have hfun : (fun k => if k = key then
        (rl₁.call_times key).filter (fun s => t' - 60 < s) else rl₁.call_times k)
        = rl₁.call_times := by
      funext k
      by_cases hk : k = key
      · subst hk
        simp [hprune]
      · simp [hk]
    show ({ rl₁ with call_times := fun k => if k = key then
        (rl₁.call_times key).filter (fun s => t' - 60 < s) else rl₁.call_times k }
        : RateLimiter) = rl₁
    rw [hfun]

/-- C2: the cooldown query returns 0 exactly when the embedded `is_allowed`
check answers true (and its resulting state is exactly the state
`is_allowed` leaves, so an allowed query records the call as a side
effect); when the check answers false the cooldown is
`60 - (now - oldest pruned timestamp)`, which lies in `(0, 60]` whenever
the limit is at least 1 and all recorded timestamps are in the past. -/
theorem get_cooldown_seconds_spec (rl : RateLimiter) (key : String) (now : ℚ)
    (hlim : 1 ≤ rl.calls_per_minute)
    (hpast : ∀ t ∈ rl.call_times key, t ≤ now) :
    ((rl.is_allowed key now).1 = true → (rl.get_cooldown_seconds key now).1 = 0) ∧
    ((rl.is_allowed key now).1 = false →
      (rl.get_cooldown_seconds key now).1
        = 60 - (now - listMin ((rl.call_times key).filter (fun t => now - 60 < t))) ∧
      0 < (rl.get_cooldown_seconds key now).1 ∧
      (rl.get_cooldown_seconds key now).1 ≤ 60) ∧
    (rl.get_cooldown_seconds key now).2 = (rl.is_allowed key now).2 := by
  by_cases hc : rl.calls_per_minute ≤
      ((rl.call_times key).filter (fun t => now - 60 < t)).length
  · have hres : rl.is_allowed key now =
        (false, { rl with call_times := fun k => if k = key then
          (rl.call_times key).filter (fun t => now - 60 < t) else rl.call_times k }) := by
      simp only [RateLimiter.is_allowed]
      rw [if_pos hc]
    set pruned := (rl.call_times key).filter (fun t => now - 60 < t) with hpruned
    have h1 : (rl.is_allowed key now).1 = false := by rw [hres]
    have hne : pruned ≠ [] := by
      intro h
      rw [h] at hc
      simp only [List.length_nil] at hc
      omega
    have hmem := listMin_mem pruned hne
    have hmem' : listMin pruned ∈ rl.call_times key := (List.mem_filter.mp hmem).1
    have hwin : now - 60 < listMin pruned := by
      have := (List.mem_filter.mp hmem).2
      simpa using this
    have hle : listMin pruned ≤ now := hpast _ hmem'
    have hstkey : (rl.is_allowed key now).2.call_times key = pruned := by
      rw [hres]
      simp
    have hvalid :
        ((rl.is_allowed key now).2.call_times key).filter (fun t => now - 60 < t)
          = pruned := by
      rw [hstkey]
      exact List.filter_eq_self.mpr (fun a ha => (List.mem_filter.mp ha).2)
    have hcool : rl.get_cooldown_seconds key now
        = (60 - (now - listMin pruned), (rl.is_allowed key now).2) := by
      simp only [RateLimiter.get_cooldown_seconds, h1, Bool.false_eq_true, if_false]
      rw [hvalid, if_neg hne]
      have hmax : max 0 (60 - (now - listMin pruned)) = 60 - (now - listMin pruned) :=
        max_eq_right (by linarith)
      rw [hmax]
    refine ⟨?_, ?_, ?_⟩
    · intro h
      rw [h1] at h
      cases h
    · intro _
      refine ⟨by rw [hcool], by rw [hcool]; simp only; linarith, by rw [hcool]; simp only; linarith⟩
    · rw [hcool]
  · have h1 : (rl.is_allowed key now).1 = true := by
      simp only [RateLimiter.is_allowed]
      rw [if_neg hc]
    have hcool : rl.get_cooldown_seconds key now = (0, (rl.is_allowed key now).2) := by
      simp only [RateLimiter.get_cooldown_seconds, h1, if_true]
    refine ⟨fun _ => by rw [hcool], fun h => ?_, by rw [hcool]⟩
    rw [h1] at h
    cases h

/-- Concrete limiter with limit 1 and one recorded call at time 10. -/
def rlOneUsed : RateLimiter :=
  ⟨1, 60, fun k => if k = "u" then [10] else [], fun _ => 10⟩

/-- Witness for C2: with limit 1 and a call recorded at time 10, the
cooldown at time 30 is `60 - (30 - 10) = 40`, a positive value. -/
theorem get_cooldown_seconds_spec_witness :
    (rlOneUsed.get_cooldown_seconds "u" 30).1 = 40 ∧
    0 < (rlOneUsed.get_cooldown_seconds "u" 30).1 := by
  have h := get_cooldown_seconds_spec rlOneUsed "u" 30 (by decide)
    (by
      intro t ht
      simp only [rlOneUsed, if_pos rfl] at ht
      rcases List.mem_singleton.mp ht with rfl
      norm_num)
  have hfalse : (rlOneUsed.is_allowed "u" 30).1 = false := by
    simp only [RateLimiter.is_allowed, rlOneUsed]
    norm_num
  have heq := (h.2.1 hfalse).1
  refine ⟨?_, (h.2.1 hfalse).2.1⟩
  rw [heq]
  simp only [rlOneUsed]
  norm_num [listMin]

/-- Concrete limiter with limit 2 and no recorded calls, for witnesses. -/
def rlTwo : RateLimiter :=
  ⟨2, 30, fun _ => [], fun _ => 0⟩

/-- Witness for C1 at limit 2 with calls at times 0 and 30 and a rejected
third call at time 59. -/
theorem rate_limiter_admits_limit_then_rejects_witness :
    (is_allowed_run rlTwo "user" [0, 30]).1 = List.replicate 2 true ∧
    ((is_allowed_run rlTwo "user" [0, 30]).2.is_allowed "user" 59).1 = false ∧
    ((is_allowed_run rlTwo "user" [0, 30]).2.is_allowed "user" 59).2
      = (is_allowed_run rlTwo "user" [0, 30]).2 :=
  rate_limiter_admits_limit_then_rejects 2 (by decide) rlTwo "user" rfl rfl
    0 [0, 30] rfl (by norm_num [List.forall_mem_cons]) 59 (by norm_num) (by norm_num)

/-- C9: constructing a limiter computes `60.0 / calls_per_minute` with no
guard, so construction with a zero limit fails with the division-by-zero
error (rather than yielding an always-rejecting limiter), while any
nonzero limit yields a limiter with that limit and empty per-key state. -/
theorem rate_limiter_init_guard :
    RateLimiter.init 0 = Except.error "ZeroDivisionError: float division by zero" ∧
    ∀ n : ℕ, 1 ≤ n → ∃ rl : RateLimiter,
      RateLimiter.init n = Except.ok rl ∧ rl.calls_per_minute = n ∧
      rl.min_interval = 60 / (n : ℚ) ∧ ∀ k, rl.call_times k = [] := by
  refine ⟨rfl, fun n hn => ?_⟩
  have hne : n ≠ 0 := by omega
  refine ⟨⟨n, 60 / (n : ℚ), fun _ => [], fun _ => 0⟩, ?_, rfl, rfl, fun _ => rfl⟩
  simp only [RateLimiter.init]
  rw [if_neg hne]

/-- Witness for C9 at limit 5. -/
theorem rate_limiter_init_guard_witness :
    RateLimiter.init 0 = Except.error "ZeroDivisionError: float division by zero" ∧
    ∃ rl : RateLimiter, RateLimiter.init 5 = Except.ok rl ∧ rl.calls_per_minute = 5 ∧
      rl.min_interval = 60 / (5 : ℚ) ∧ ∀ k, rl.call_times k = [] :=
  ⟨rate_limiter_init_guard.1, rate_limiter_init_guard.2 5 (by decide)⟩

/-- Entry of the TTL cache (`CacheEntry` in `utils/cache.py`): a value with
its absolute expiry instant. -/
structure CacheEntry (T : Type) where
  value : T
  expires_at : ℚ

/-- Method `CacheEntry.is_expired`: the entry is expired when the clock has
passed `expires_at` (`time.time() > self.expires_at`). -/
def CacheEntry.is_expired {T : Type} (e : CacheEntry T) (now : ℚ) : Bool :=
  decide (e.expires_at < now)

/-- State of the TTL cache (`SimpleCache` in `utils/cache.py`): a fixed TTL
and a table from keys to entries, modelled as a total function with `none`
for absent keys. -/
structure SimpleCache (T : Type) where
  ttl_seconds : ℚ
  cache : String → Option (CacheEntry T)

/-- Method `SimpleCache.get`: absent key yields `none`; an expired entry is
deleted and `none` is returned (lazy eviction); a live entry's value is
returned with the table untouched. -/
def SimpleCache.get {T : Type} (c : SimpleCache T) (key : String) (now : ℚ) :
    Option T × SimpleCache T :=
  match c.cache key with
  | none => (none, c)
  | some e =>
    if e.is_expired now then
      (none, { c with cache := fun k => if k = key then none else c.cache k })
    else
      (some e.value, c)

/-- Method `SimpleCache.set`: unconditionally overwrites the key with a
fresh entry expiring at `now + ttl_seconds`. -/
def SimpleCache.set {T : Type} (c : SimpleCache T) (key : String) (v : T) (now : ℚ) :
    SimpleCache T :=
  { c with cache := fun k => if k = key then some ⟨v, now + c.ttl_seconds⟩ else c.cache k }

/-- Method `SimpleCache.clear`: removes all entries. -/
def SimpleCache.clear {T : Type} (c : SimpleCache T) : SimpleCache T :=
  { c with cache := fun _ => none }

/-- C3: a read after a `set` returns the stored value while
`now ≤ set-time + TTL` (leaving the table unchanged) and returns `none`
afterwards, evicting the entry as a side effect; and in any state, a value
returned by `get` comes from an entry whose expiry has not passed, so an
expired value is never returned. -/
theorem cache_get_set_spec {T : Type} (c : SimpleCache T) (key : String) (v : T)
    (tset tget : ℚ) :
    (tget ≤ tset + c.ttl_seconds →
      ((c.set key v tset).get key tget).1 = some v ∧
      ((c.set key v tset).get key tget).2 = c.set key v tset) ∧
    (tset + c.ttl_seconds < tget →
      ((c.set key v tset).get key tget).1 = none ∧
      ((c.set key v tset).get key tget).2.cache key = none) ∧
    (∀ w : T, (c.get key tget).1 = some w →
      ∃ e : CacheEntry T, c.cache key = some e ∧ e.value = w ∧ tget ≤ e.expires_at) := by
  have hent : (c.set key v tset).cache key = some ⟨v, tset + c.ttl_seconds⟩ := by
    simp [SimpleCache.set]
  refine ⟨fun h => ?_, fun h => ?_, fun w hw => ?_⟩
  · have hexp : (CacheEntry.mk v (tset + c.ttl_seconds)).is_expired tget = false := by
      simp only [CacheEntry.is_expired, decide_eq_false_iff_not, not_lt]
      exact h
    constructor
    · simp [SimpleCache.get, hent, hexp]
    · simp [SimpleCache.get, hent, hexp]
  · have hexp : (CacheEntry.mk v (tset + c.ttl_seconds)).is_expired tget = true := by
      simp only [CacheEntry.is_expired, decide_eq_true_eq]
      exact h
    constructor
    · simp [SimpleCache.get, hent, hexp]
    · simp [SimpleCache.get, hent, hexp]
  · cases hcc : c.cache key with
    | none => simp [SimpleCache.get, hcc] at hw
    | some e =>
      by_cases hexp : e.is_expired tget = true
      · simp [SimpleCache.get, hcc, hexp] at hw
      · have hval : e.value = w := by
          simp [SimpleCache.get, hcc, hexp] at hw
          exact hw
        refine ⟨e, rfl, hval, ?_⟩
        simp only [CacheEntry.is_expired, decide_eq_true_eq] at hexp
        linarith [not_lt.mp hexp]

/-- Concrete natural-number cache with TTL 100 and empty table. -/
def cNat : SimpleCache ℕ :=
  ⟨100, fun _ => none⟩

/-- Witness for C3: store 7 at time 0 with TTL 100; a read at time 50 hits,
a read at time 200 misses, and the time-50 hit comes from a live entry. -/
theorem cache_get_set_spec_witness :
    ((cNat.set "k" 7 0).get "k" 50).1 = some 7 ∧
    ((cNat.set "k" 7 0).get "k" 200).1 = none ∧
    ∃ e : CacheEntry ℕ, (cNat.set "k" 7 0).cache "k" = some e ∧ e.value = 7 ∧
      (50 : ℚ) ≤ e.expires_at :=
  ⟨((cache_get_set_spec cNat "k" 7 0 50).1 (by norm_num [cNat])).1,
   ((cache_get_set_spec cNat "k" 7 0 200).2.1 (by norm_num [cNat])).1,
   (cache_get_set_spec (cNat.set "k" 7 0) "k" 7 0 50).2.2 7
     ((cache_get_set_spec cNat "k" 7 0 50).1 (by norm_num [cNat])).1⟩

/-- Removes leading whitespace characters from a character list. -/
def dropLeadingWs : List Char → List Char
  | [] => []
  | c :: cs => if c.isWhitespace then dropLeadingWs cs else c :: cs

/-- Python's `str.strip()` with no argument: removes leading and trailing
whitespace. Defined on the character sequence so that it evaluates by
kernel reduction. -/
def strip (s : String) : String :=
  String.mk ((dropLeadingWs ((dropLeadingWs s.data).reverse)).reverse)

/-- Decides whether the first character list is an initial segment of the
second. -/
def beginsWithChars : List Char → List Char → Bool
  | [], _ => true
  | _ :: _, [] => false
  | a :: as, b :: bs => a == b && beginsWithChars as bs

/-- Decides whether the first character list occurs contiguously inside the
second. -/
def hasSubChars (needle : List Char) : List Char → Bool
  | [] => needle.isEmpty
  | b :: bs => beginsWithChars needle (b :: bs) || hasSubChars needle bs

/-- The service's authentication test on a provider error: the source
checks `"401" in str(e) or "403" in str(e)`, a substring test on the
error's description. -/
def mentions401or403 (s : String) : Bool :=
  hasSubChars "401".toList s.toList || hasSubChars "403".toList s.toList

/-- Outcome of one network attempt, one constructor per exception class the
source's retry loop distinguishes: success, `APITimeoutError`,
`APIConnectionError`, `APIError` (description carried for the 401/403
test), and the catch-all `Exception`. -/
inductive AttemptResult where
  | success (text : String)
  | timeout (message : String)
  | connection_error (message : String)
  | api_error (message : String)
  | unexpected_error (message : String)
deriving DecidableEq

/-- Classified failures of `ask`: `ValueError` on an empty prompt, the
authentication `RuntimeError`, and the exhaustion `RuntimeError` carrying
the last observed error's description. -/
inductive AskError where
  | invalid_input
  | authentication_error (message : String)
  | retries_exhausted (last_error : String)
deriving DecidableEq

/-- State of the completion client (`LLMService` in
`services/llm_service.py`): retry budget, default system prompt, the
process's string-hash function (abstract here, as the source's `hash`),
and the optional response cache (`none` when caching is disabled). -/
structure LLMService where
  max_retries : ℕ
  system_prompt_default : String
  hash_fn : String → Int
  cache : Option (SimpleCache String)

/-- Method `LLMService._build_cache_key`:
`f"{hash(system_prompt)}:{hash(user_prompt)}"`. -/
def LLMService.build_cache_key (svc : LLMService) (system_prompt user_prompt : String) :
    String :=
  toString (svc.hash_fn system_prompt) ++ ":" ++ toString (svc.hash_fn user_prompt)

/-- Resolution `system_prompt = system_prompt or Config.SYSTEM_PROMPT`:
`None` and the empty string (both falsy) fall back to the default. -/
def LLMService.resolve_system_prompt (svc : LLMService) (system_prompt : Option String) :
    String :=
  match system_prompt with
  | none => svc.system_prompt_default
  | some s => if s = "" then svc.system_prompt_default else s

/-- The retry loop of `ask` over a provider oracle giving each attempt's
outcome. Arguments: attempts remaining, current 1-based attempt number,
and the last observed error's description (initially the rendering of
Python's `None`). Returns the classified result, the list of backoff
waits in seconds (`2 ^ attempt` for timeout/connection/API errors, a flat
1 for the catch-all, none after the final attempt), and the number of
network calls made. A 401/403-mentioning `APIError` aborts immediately;
every other failure on the final attempt yields the exhaustion error with
its description. Successful text is trimmed of surrounding whitespace. -/
def run_attempts (provider : ℕ → AttemptResult) :
    ℕ → ℕ → String → Except AskError String × List ℕ × ℕ
  | 0, _, last_error => (Except.error (AskError.retries_exhausted last_error), [], 0)
  | n + 1, attempt, _ =>
    match provider attempt with
    | AttemptResult.success text => (Except.ok (strip text), [], 1)
    | AttemptResult.timeout msg =>
      if n = 0 then (Except.error (AskError.retries_exhausted msg), [], 1)
      else
        let rest := run_attempts provider n (attempt + 1) msg
        (rest.1, 2 ^ attempt :: rest.2.1, rest.2.2 + 1)
    | AttemptResult.connection_error msg =>
      if n = 0 then (Except.error (AskError.retries_exhausted msg), [], 1)
      else
        let rest := run_attempts provider n (attempt + 1) msg
        (rest.1, 2 ^ attempt :: rest.2.1, rest.2.2 + 1)
    | AttemptResult.api_error msg =>
      if mentions401or403 msg then
        (Except.error (AskError.authentication_error msg), [], 1)
      else if n = 0 then (Except.error (AskError.retries_exhausted msg), [], 1)
      else
        let rest := run_attempts provider n (attempt + 1) msg
        (rest.1, 2 ^ attempt :: rest.2.1, rest.2.2 + 1)
    | AttemptResult.unexpected_error msg =>
      if n = 0 then (Except.error (AskError.retries_exhausted msg), [], 1)
      else
        let rest := run_attempts provider n (attempt + 1) msg
        (rest.1, 1 :: rest.2.1, rest.2.2 + 1)

/-- The network phase of `ask` (the body after the cache lookup): run the
retry loop and, on success only, store the trimmed text in the cache
before returning. Returns result, new service state, backoff waits, and
network-call count. -/
def LLMService.ask_network (svc : LLMService) (provider : ℕ → AttemptResult)
    (sys prompt : String) (now : ℚ) :
    Except AskError String × LLMService × List ℕ × ℕ :=
  let r := run_attempts provider svc.max_retries 1 "None"
  match r.1 with
  | Except.ok out =>
    match svc.cache with
    | some c =>
      (Except.ok out,
       { svc with cache := some (c.set (svc.build_cache_key sys prompt) out now) },
       r.2.1, r.2.2)
    | none => (Except.ok out, svc, r.2.1, r.2.2)
  | Except.error e => (Except.error e, svc, r.2.1, r.2.2)

/-- Method `LLMService.ask`: reject an empty or all-whitespace prompt
before any network traffic; otherwise resolve the system prompt, consult
the cache (the hit test `if cached_response:` is Python truthiness, so a
cached empty string falls through to the network), and on a hit return
the cached value with no attempts; otherwise run the network phase. -/
def LLMService.ask (svc : LLMService) (provider : ℕ → AttemptResult)
    (prompt : String) (system_prompt : Option String) (now : ℚ) :
    Except AskError String × LLMService × List ℕ × ℕ :=
  if prompt = "" ∨ strip prompt = "" then
    (Except.error AskError.invalid_input, svc, [], 0)
  else
    let sys := svc.resolve_system_prompt system_prompt
    match svc.cache with
    | none => svc.ask_network provider sys prompt now
    | some c =>
      let res := c.get (svc.build_cache_key sys prompt) now
      let svc₁ : LLMService := { svc with cache := some res.2 }
      match res.1 with
      | some v =>
        if v = "" then svc₁.ask_network provider sys prompt now
        else (Except.ok v, svc₁, [], 0)
      | none => svc₁.ask_network provider sys prompt now

/-- The cache-hit test of `ask` in isolation: true exactly when caching is
enabled and the lookup returns a truthy (nonempty) string. -/
def LLMService.cache_hit (svc : LLMService) (prompt : String)
    (system_prompt : Option String) (now : ℚ) : Bool :=
  match svc.cache with
  | none => false
  | some c =>
    match (c.get (svc.build_cache_key (svc.resolve_system_prompt system_prompt) prompt)
        now).1 with
    | none => false
    | some v => if v = "" then false else true

/-- The response truncation in `MessageHandlerCog._send_response`, on the
message's character sequence: a response longer than the configured
maximum (`Config.MAX_MESSAGE_LENGTH`, default 1900) is cut to
`max_len - 4` characters with the `"..."` marker appended; otherwise it
is transmitted unchanged. -/
def send_response_text (max_len : ℕ) (response : List Char) : List Char :=
  if max_len < response.length then
    response.take (max_len - 4) ++ ['.', '.', '.']
  else
    response

/-- Default `Config.MAX_MESSAGE_LENGTH` from `config/settings.py`. -/
def MAX_MESSAGE_LENGTH : ℕ := 1900

/-- C8: a response within the limit is transmitted unchanged; a longer one
is transmitted as an initial segment of the response with the truncation
marker appended at the cut, and the transmitted text never exceeds the
maximum message length (its length is exactly `max_len - 1`). -/
theorem send_response_text_spec (max_len : ℕ) (h4 : 4 ≤ max_len)
    (response : List Char) :
    (response.length ≤ max_len → send_response_text max_len response = response) ∧
    (max_len < response.length →
      send_response_text max_len response
        = response.take (max_len - 4) ++ ['.', '.', '.'] ∧
      (send_response_text max_len response).length = max_len - 1 ∧
      (send_response_text max_len response).length ≤ max_len ∧
      (send_response_text max_len response).take (max_len - 4)
        = response.take (max_len - 4) ∧
      (send_response_text max_len response).drop (max_len - 4) = ['.', '.', '.']) := by
  constructor
  · intro h
    simp only [send_response_text]
    rw [if_neg (by omega)]
  · intro h
    have heq : send_response_text max_len response
        = response.take (max_len - 4) ++ ['.', '.', '.'] := by
      simp only [send_response_text]
      rw [if_pos h]
    have htl : (response.take (max_len - 4)).length = max_len - 4 := by
      rw [List.length_take]
      omega
    have hlen : (send_response_text max_len response).length = max_len - 1 := by
      rw [heq, List.length_append, htl]
      simp only [List.length_cons, List.length_nil]
      omega
    refine ⟨heq, hlen, by omega, ?_, ?_⟩
    · rw [heq, List.take_left' htl]
    · rw [heq, List.drop_left' htl]

/-- Witness for C8 at limit 6: an 8-character response is transmitted as
its first 2 characters plus the marker (length 5), and a 2-character
response is transmitted unchanged. -/
theorem send_response_text_spec_witness :
    send_response_text 6 ['a', 'b'] = ['a', 'b'] ∧
    send_response_text 6 ['a', 'b', 'c', 'd', 'e', 'f', 'g', 'h']
      = ['a', 'b', 'c', 'd', 'e', 'f', 'g', 'h'].take 2 ++ ['.', '.', '.'] ∧
    (send_response_text 6 ['a', 'b', 'c', 'd', 'e', 'f', 'g', 'h']).length ≤ 6 :=
  ⟨(send_response_text_spec 6 (by decide) ['a', 'b']).1 (by decide),
   ((send_response_text_spec 6 (by decide) ['a', 'b', 'c', 'd', 'e', 'f', 'g', 'h']).2
      (by decide)).1,
   ((send_response_text_spec 6 (by decide) ['a', 'b', 'c', 'd', 'e', 'f', 'g', 'h']).2
      (by decide)).2.2.1⟩

/-- The retry loop performs at least one network call when at least one
attempt remains. -/
lemma run_attempts_calls_pos (provider : ℕ → AttemptResult) :
    ∀ (n a : ℕ) (last : String), 1 ≤ n →
      1 ≤ (run_attempts provider n a last).2.2
  | 0, _, _, h => absurd h (by omega)
  | n + 1, a, last, _ => by
    cases hp : provider a with
    | success text =>
      simp only [run_attempts, hp]
      exact Nat.le_refl 1
    | timeout msg =>
      simp only [run_attempts, hp]
      by_cases hn : n = 0
      · rw [if_pos hn]
      · rw [if_neg hn]
        exact Nat.le_add_left 1 _
    | connection_error msg =>
      simp only [run_attempts, hp]
      by_cases hn : n = 0
      · rw [if_pos hn]
      · rw [if_neg hn]
        exact Nat.le_add_left 1 _
    | api_error msg =>
      simp only [run_attempts, hp]
      by_cases hm : mentions401or403 msg = true
      · rw [if_pos hm]
      · rw [if_neg hm]
        by_cases hn : n = 0
        · rw [if_pos hn]
        · rw [if_neg hn]
          exact Nat.le_add_left 1 _
    | unexpected_error msg =>
      simp only [run_attempts, hp]
      by_cases hn : n = 0
      · rw [if_pos hn]
      · rw [if_neg hn]
        exact Nat.le_add_left 1 _

/-- A successful result of the retry loop is the whitespace-trimmed text of
some successful provider attempt. -/
lemma run_attempts_ok_inv (provider : ℕ → AttemptResult) :
    ∀ (n a : ℕ) (last v : String),
      (run_attempts provider n a last).1 = Except.ok v →
      ∃ i w, provider i = AttemptResult.success w ∧ v = strip w
  | 0, a, last, v => by simp [run_attempts]
  | n + 1, a, last, v => by
    intro h
    cases hp : provider a with
    | success text =>
      simp only [run_attempts, hp, Except.ok.injEq] at h
      exact ⟨a, text, hp, h.symm⟩
    | timeout msg =>
      simp only [run_attempts, hp] at h
      by_cases hn : n = 0
      · rw [if_pos hn] at h
        simp at h
      · rw [if_neg hn] at h
        exact run_attempts_ok_inv provider n (a + 1) msg v h
    | connection_error msg =>
      simp only [run_attempts, hp] at h
      by_cases hn : n = 0
      · rw [if_pos hn] at h
        simp at h
      · rw [if_neg hn] at h
        exact run_attempts_ok_inv provider n (a + 1) msg v h
    | api_error msg =>
      simp only [run_attempts, hp] at h
      by_cases hm : mentions401or403 msg = true
      · rw [if_pos hm] at h
        simp at h
      · rw [if_neg hm] at h
        by_cases hn : n = 0
        · rw [if_pos hn] at h
          simp at h
        · rw [if_neg hn] at h
          exact run_attempts_ok_inv provider n (a + 1) msg v h
    | unexpected_error msg =>
      simp only [run_attempts, hp] at h
      by_cases hn : n = 0
      · rw [if_pos hn] at h
        simp at h
      · rw [if_neg hn] at h
        exact run_attempts_ok_inv provider n (a + 1) msg v h

/-- The network phase reports exactly the retry loop's result, waits, and
call count, and leaves every non-cache field of the service unchanged. -/
lemma ask_network_result (svc : LLMService) (provider : ℕ → AttemptResult)
    (sys prompt : String) (now : ℚ) :
    (svc.ask_network provider sys prompt now).1
      = (run_attempts provider svc.max_retries 1 "None").1 ∧
    (svc.ask_network provider sys prompt now).2.2
      = (run_attempts provider svc.max_retries 1 "None").2 ∧
    (svc.ask_network provider sys prompt now).2.1.max_retries = svc.max_retries ∧
    (svc.ask_network provider sys prompt now).2.1.system_prompt_default
      = svc.system_prompt_default ∧
    (svc.ask_network provider sys prompt now).2.1.hash_fn = svc.hash_fn := by
  unfold LLMService.ask_network
  cases h : (run_attempts provider svc.max_retries 1 "None").1 with
  | ok out =>
    cases hc : svc.cache with
    | none => simp [h, hc]
    | some c => simp [h, hc]
  | error e => simp [h]

/-- On a successful network phase with caching enabled, the trimmed text is
returned and stored under the request's cache key. -/
lemma ask_network_ok_state (svc : LLMService) (c : SimpleCache String)
    (provider : ℕ → AttemptResult) (sys prompt : String) (now : ℚ) (out : String)
    (hc : svc.cache = some c)
    (h : (run_attempts provider svc.max_retries 1 "None").1 = Except.ok out) :
    svc.ask_network provider sys prompt now
      = (Except.ok out,
         { svc with cache := some (c.set (svc.build_cache_key sys prompt) out now) },
         (run_attempts provider svc.max_retries 1 "None").2.1,
         (run_attempts provider svc.max_retries 1 "None").2.2) := by
  unfold LLMService.ask_network
  simp [h, hc]

/-- Against a provider that times out on every attempt, the retry loop from
attempt `a` with `n ≥ 1` attempts remaining makes exactly `n` calls,
waits `2 ^ a, 2 ^ (a+1), …` between consecutive attempts (no wait after
the last), and fails with the exhaustion error carrying the last
attempt's message. -/
lemma run_attempts_timeout (provider : ℕ → AttemptResult) (m : ℕ → String)
    (hp : ∀ i, provider i = AttemptResult.timeout (m i)) :
    ∀ (n : ℕ), 1 ≤ n → ∀ (a : ℕ) (last : String),
      run_attempts provider n a last
        = (Except.error (AskError.retries_exhausted (m (a + n - 1))),
           (List.range' a (n - 1)).map (fun i => 2 ^ i), n) := by
  intro n
  induction n with
  | zero => intro h; exact absurd h (by omega)
  | succ k ih =>
    intro _ a last
    rcases Nat.eq_zero_or_pos k with rfl | hk
    · simp only [run_attempts, hp a]
      simp
    · have ihk := ih hk (a + 1) (m a)
      simp only [run_attempts, hp a]
      rw [if_neg (by omega : ¬ k = 0), ihk]
      have h1 : a + 1 + k - 1 = a + (k + 1) - 1 := by omega
      have h2 : 2 ^ a :: (List.range' (a + 1) (k - 1)).map (fun i => 2 ^ i)
          = (List.range' a (k + 1 - 1)).map (fun i => 2 ^ i) := by
        have hk' : k + 1 - 1 = (k - 1) + 1 := by omega
        rw [hk', List.range'_succ a (k - 1) 1]
        rfl
      rw [h1, h2]

/-- When the prompt is valid and the cache-hit test fails, `ask` reports
exactly the retry loop's result, waits, and call count. -/
lemma ask_miss_run (svc : LLMService) (provider : ℕ → AttemptResult)
    (prompt : String) (system_prompt : Option String) (now : ℚ)
    (hvalid : ¬(prompt = "" ∨ strip prompt = ""))
    (hmiss : svc.cache_hit prompt system_prompt now = false) :
    (svc.ask provider prompt system_prompt now).1
      = (run_attempts provider svc.max_retries 1 "None").1 ∧
    (svc.ask provider prompt system_prompt now).2.2
      = (run_attempts provider svc.max_retries 1 "None").2 := by
  cases hc : svc.cache with
  | none =>
    have hn := ask_network_result svc provider
      (svc.resolve_system_prompt system_prompt) prompt now
    constructor
    · simp only [LLMService.ask, hc]
      rw [if_neg hvalid]
      exact hn.1
    · simp only [LLMService.ask, hc]
      rw [if_neg hvalid]
      exact hn.2.1
  | some c =>
    cases hres :
        (c.get (svc.build_cache_key (svc.resolve_system_prompt system_prompt) prompt)
          now).1 with
    | none =>
      have hn := ask_network_result { svc with cache := some (c.get (svc.build_cache_key (svc.resolve_system_prompt system_prompt) prompt) now).2 } provider (svc.resolve_system_prompt system_prompt) prompt now
      constructor
      · simp only [LLMService.ask, hc]
        rw [if_neg hvalid]
        simp only [hres]
        exact hn.1
      · simp only [LLMService.ask, hc]
        rw [if_neg hvalid]
        simp only [hres]
        exact hn.2.1
    | some v =>
      have hv : v = "" := by
        simp only [LLMService.cache_hit, hc, hres] at hmiss
        by_contra hne
        rw [if_neg hne] at hmiss
        cases hmiss
      subst hv
      have hn := ask_network_result { svc with cache := some (c.get (svc.build_cache_key (svc.resolve_system_prompt system_prompt) prompt) now).2 } provider (svc.resolve_system_prompt system_prompt) prompt now
      constructor
      · simp only [LLMService.ask, hc]
        rw [if_neg hvalid]
        simp only [hres, if_true]
        exact hn.1
      · simp only [LLMService.ask, hc]
        rw [if_neg hvalid]
        simp only [hres, if_true]
        exact hn.2.1

/-- C5: when every attempt fails with a retryable timeout (and the
request reaches the network: valid prompt, no usable cache hit, at least
one attempt configured), `ask` makes exactly `max_retries` network calls,
waits `2, 4, …, 2 ^ (max_retries - 1)` seconds between consecutive
attempts with no wait after the last, and fails with the exhaustion error
carrying the last attempt's message. -/
theorem ask_all_timeouts_exhausts (svc : LLMService) (provider : ℕ → AttemptResult)
    (m : ℕ → String) (prompt : String) (system_prompt : Option String) (now : ℚ)
    (hvalid : ¬(prompt = "" ∨ strip prompt = ""))
    (hmiss : svc.cache_hit prompt system_prompt now = false)
    (hn : 1 ≤ svc.max_retries)
    (hp : ∀ i, provider i = AttemptResult.timeout (m i)) :
    (svc.ask provider prompt system_prompt now).1
      = Except.error (AskError.retries_exhausted (m svc.max_retries)) ∧
    (svc.ask provider prompt system_prompt now).2.2.1
      = (List.range' 1 (svc.max_retries - 1)).map (fun i => 2 ^ i) ∧
    (svc.ask provider prompt system_prompt now).2.2.2 = svc.max_retries := by
  have hred := ask_miss_run svc provider prompt system_prompt now hvalid hmiss
  have hrt := run_attempts_timeout provider m hp svc.max_retries hn 1 "None"
  have hm1 : 1 + svc.max_retries - 1 = svc.max_retries := by omega
  refine ⟨?_, ?_, ?_⟩
  · rw [hred.1, hrt, hm1]
  · rw [hred.2, hrt]
  · rw [hred.2, hrt]

/-- Concrete service with three retries, no cache, and a length hash. -/
def svcPlain : LLMService :=
  ⟨3, "sys", fun s => (s.length : Int), none⟩

/-- Provider that times out on every attempt with a numbered message. -/
def provTimeout : ℕ → AttemptResult :=
  fun i => AttemptResult.timeout ("t" ++ toString i)

/-- Witness for C5: three attempts, waits of 2 and 4 seconds, exhaustion
carrying the third attempt's message. -/
theorem ask_all_timeouts_exhausts_witness :
    (svcPlain.ask provTimeout "hello" none 0).1
      = Except.error (AskError.retries_exhausted "t3") ∧
    (svcPlain.ask provTimeout "hello" none 0).2.2.1 = [2, 4] ∧
    (svcPlain.ask provTimeout "hello" none 0).2.2.2 = 3 := by
  have h := ask_all_timeouts_exhausts svcPlain provTimeout
    (fun i => "t" ++ toString i) "hello" none 0 (by decide) rfl (by decide)
    (fun i => rfl)
  refine ⟨h.1, ?_, h.2.2⟩
  rw [h.2.1]
  decide

/-- C6: a provider-reported error whose description mentions 401 or 403 on
the first attempt makes `ask` fail with the authentication error after
exactly one network call, with no backoff wait. -/
theorem ask_auth_error_immediate (svc : LLMService) (provider : ℕ → AttemptResult)
    (msg prompt : String) (system_prompt : Option String) (now : ℚ)
    (hvalid : ¬(prompt = "" ∨ strip prompt = ""))
    (hmiss : svc.cache_hit prompt system_prompt now = false)
    (hn : 1 ≤ svc.max_retries)
    (hp1 : provider 1 = AttemptResult.api_error msg)
    (hauth : mentions401or403 msg = true) :
    (svc.ask provider prompt system_prompt now).1
      = Except.error (AskError.authentication_error msg) ∧
    (svc.ask provider prompt system_prompt now).2.2.1 = [] ∧
    (svc.ask provider prompt system_prompt now).2.2.2 = 1 := by
  have hred := ask_miss_run svc provider prompt system_prompt now hvalid hmiss
  obtain ⟨k, hk⟩ : ∃ k, svc.max_retries = k + 1 := ⟨svc.max_retries - 1, by omega⟩
  have hrun : run_attempts provider svc.max_retries 1 "None"
      = (Except.error (AskError.authentication_error msg), [], 1) := by
    rw [hk]
    simp only [run_attempts, hp1]
    rw [if_pos hauth]
  exact ⟨by rw [hred.1, hrun], by rw [hred.2, hrun], by rw [hred.2, hrun]⟩

/-- Provider that reports an authentication failure on every attempt. -/
def provAuth : ℕ → AttemptResult :=
  fun _ => AttemptResult.api_error "Error code: 401 - unauthorized"

/-- Witness for C6: single attempt, no waits, authentication error. -/
theorem ask_auth_error_immediate_witness :
    (svcPlain.ask provAuth "hello" none 0).1
      = Except.error (AskError.authentication_error "Error code: 401 - unauthorized") ∧
    (svcPlain.ask provAuth "hello" none 0).2.2.1 = [] ∧
    (svcPlain.ask provAuth "hello" none 0).2.2.2 = 1 :=
  ask_auth_error_immediate svcPlain provAuth "Error code: 401 - unauthorized"
    "hello" none 0 (by decide) rfl (by decide) rfl (by decide)

/-- C7: an empty or all-whitespace prompt makes `ask` fail synchronously
with the invalid-input error, leaving the service state unchanged, with
no network call and no wait. -/
theorem ask_empty_prompt_invalid (svc : LLMService) (provider : ℕ → AttemptResult)
    (prompt : String) (system_prompt : Option String) (now : ℚ)
    (h : prompt = "" ∨ strip prompt = "") :
    svc.ask provider prompt system_prompt now
      = (Except.error AskError.invalid_input, svc, [], 0) := by
  simp only [LLMService.ask]
  rw [if_pos h]

/-- Witness for C7 on the empty prompt and on a whitespace-only prompt. -/
theorem ask_empty_prompt_invalid_witness :
    svcPlain.ask provAuth "" none 0
      = (Except.error AskError.invalid_input, svcPlain, [], 0) ∧
    svcPlain.ask provAuth "   " none 0
      = (Except.error AskError.invalid_input, svcPlain, [], 0) :=
  ⟨ask_empty_prompt_invalid svcPlain provAuth "" none 0 (Or.inl rfl),
   ask_empty_prompt_invalid svcPlain provAuth "   " none 0 (Or.inr (by decide))⟩

/-- C10: a live cache entry holding the empty string is treated as a miss
by the truthiness test, so `ask` performs at least one network attempt
and reports the retry loop's result; the empty cached value is never
served. -/
theorem ask_cached_empty_goes_to_network (svc : LLMService)
    (c : SimpleCache String) (provider : ℕ → AttemptResult)
    (prompt : String) (system_prompt : Option String) (now : ℚ)
    (hc : svc.cache = some c)
    (hvalid : ¬(prompt = "" ∨ strip prompt = ""))
    (hres : (c.get (svc.build_cache_key (svc.resolve_system_prompt system_prompt)
        prompt) now).1 = some "")
    (hn : 1 ≤ svc.max_retries) :
    (svc.ask provider prompt system_prompt now).1
      = (run_attempts provider svc.max_retries 1 "None").1 ∧
    (svc.ask provider prompt system_prompt now).2.2.2
      = (run_attempts provider svc.max_retries 1 "None").2.2 ∧
    1 ≤ (svc.ask provider prompt system_prompt now).2.2.2 := by
  have hmiss : svc.cache_hit prompt system_prompt now = false := by
    simp only [LLMService.cache_hit, hc, hres, if_true]
  have hred := ask_miss_run svc provider prompt system_prompt now hvalid hmiss
  refine ⟨hred.1, by rw [hred.2], ?_⟩
  rw [hred.2]
  exact run_attempts_calls_pos provider svc.max_retries 1 "None" hn

/-- Concrete cache holding the empty string, live until time 100, under the
key the constant-zero hash produces. -/
def cEmptyVal : SimpleCache String :=
  ⟨3600, fun k => if k = "0:0" then some ⟨"", 100⟩ else none⟩

/-- Concrete service whose cache holds a live empty-string entry for every
prompt pair (constant-zero hash). -/
def svcCachedEmpty : LLMService :=
  ⟨3, "sys", fun _ => 0, some cEmptyVal⟩

/-- Witness for C10: despite the live cached empty string, `ask` reaches
the network and makes at least one call. -/
theorem ask_cached_empty_goes_to_network_witness :
    (svcCachedEmpty.ask provAuth "hi" none 0).1
      = (run_attempts provAuth 3 1 "None").1 ∧
    1 ≤ (svcCachedEmpty.ask provAuth "hi" none 0).2.2.2 := by
  have h := ask_cached_empty_goes_to_network svcCachedEmpty cEmptyVal provAuth
    "hi" none 0 rfl (by decide) (by decide) (by decide)
  exact ⟨h.1, h.2.2⟩

/-- A cache read never changes the cache's TTL. -/
lemma cache_get_ttl (c : SimpleCache String) (k : String) (n : ℚ) :
    ((c.get k n).2).ttl_seconds = c.ttl_seconds := by
  cases hc : c.cache k with
  | none => simp [SimpleCache.get, hc]
  | some e =>
    by_cases he : e.is_expired n = true
    · simp [SimpleCache.get, hc, he]
    · simp [SimpleCache.get, hc, he]

/-- When the cache lookup returns a nonempty string without evicting, `ask`
serves it immediately: no network call, no wait, state unchanged. -/
lemma ask_hit (svc : LLMService) (c : SimpleCache String)
    (provider : ℕ → AttemptResult) (prompt : String) (system_prompt : Option String)
    (now : ℚ) (v : String)
    (hc : svc.cache = some c)
    (hvalid : ¬(prompt = "" ∨ strip prompt = ""))
    (hget : c.get (svc.build_cache_key (svc.resolve_system_prompt system_prompt)
        prompt) now = (some v, c))
    (hv : ¬ v = "") :
    svc.ask provider prompt system_prompt now = (Except.ok v, svc, [], 0) := by
  have heq : ({ svc with cache := some c } : LLMService) = svc := by
    rw [← hc]
  simp only [LLMService.ask, hc, hget]
  rw [if_neg hvalid, if_neg hv, heq]

/-- On a valid prompt whose lookup yields no truthy hit (absent entry or a
cached empty string), `ask` is the network phase run on the post-lookup
state. -/
lemma ask_miss_eq_network (svc : LLMService) (c : SimpleCache String)
    (provider : ℕ → AttemptResult) (prompt : String) (system_prompt : Option String)
    (now : ℚ)
    (hc : svc.cache = some c)
    (hvalid : ¬(prompt = "" ∨ strip prompt = ""))
    (hnohit : (c.get (svc.build_cache_key (svc.resolve_system_prompt system_prompt)
        prompt) now).1 = none ∨
      (c.get (svc.build_cache_key (svc.resolve_system_prompt system_prompt)
        prompt) now).1 = some "") :
    svc.ask provider prompt system_prompt now
      = LLMService.ask_network { svc with cache := some (c.get (svc.build_cache_key (svc.resolve_system_prompt system_prompt) prompt) now).2 } provider (svc.resolve_system_prompt system_prompt) prompt now := by
  rcases hnohit with hres | hres
  · simp only [LLMService.ask, hc, hres]
    rw [if_neg hvalid]
  · simp only [LLMService.ask, hc, hres, if_true]
    rw [if_neg hvalid]

/-- A successful `ask` on the network phase is inverted: if caching is
enabled, the result is `ok v` and the retry loop succeeded with `v`, and
the post state is the service whose cache stores `v` under the request's
key with a fresh TTL (on the table the lookup left behind). -/
lemma ask_ok_state (svc : LLMService) (c : SimpleCache String)
    (provider : ℕ → AttemptResult) (prompt : String) (system_prompt : Option String)
    (now : ℚ) (v : String)
    (hc : svc.cache = some c)
    (hok : (svc.ask provider prompt system_prompt now).1 = Except.ok v)
    (hnet : 1 ≤ (svc.ask provider prompt system_prompt now).2.2.2) :
    (run_attempts provider svc.max_retries 1 "None").1 = Except.ok v ∧
    (svc.ask provider prompt system_prompt now).2.1
      = { svc with cache := some ((c.get (svc.build_cache_key (svc.resolve_system_prompt system_prompt) prompt) now).2.set (svc.build_cache_key (svc.resolve_system_prompt system_prompt) prompt) v now) } := by
  by_cases hval : prompt = "" ∨ strip prompt = ""
  · rw [ask_empty_prompt_invalid svc provider prompt system_prompt now hval] at hok
    simp at hok
  · have main : (c.get (svc.build_cache_key (svc.resolve_system_prompt system_prompt)
        prompt) now).1 = none ∨
      (c.get (svc.build_cache_key (svc.resolve_system_prompt system_prompt)
        prompt) now).1 = some "" →
        (run_attempts provider svc.max_retries 1 "None").1 = Except.ok v ∧
        (svc.ask provider prompt system_prompt now).2.1
          = { svc with cache := some ((c.get (svc.build_cache_key (svc.resolve_system_prompt system_prompt) prompt) now).2.set (svc.build_cache_key (svc.resolve_system_prompt system_prompt) prompt) v now) } := by
      intro hnohit
      have hask := ask_miss_eq_network svc c provider prompt system_prompt now hc
        hval hnohit
      rw [hask] at hok
      have hrunok : (run_attempts provider svc.max_retries 1 "None").1
          = Except.ok v := by
        have h1 : (LLMService.ask_network { svc with cache := some (c.get (svc.build_cache_key (svc.resolve_system_prompt system_prompt) prompt) now).2 } provider (svc.resolve_system_prompt system_prompt) prompt now).1 = (run_attempts provider svc.max_retries 1 "None").1 :=
          (ask_network_result _ provider (svc.resolve_system_prompt system_prompt)
            prompt now).1
        rw [← h1]
        exact hok
      refine ⟨hrunok, ?_⟩
      have hstate := ask_network_ok_state
        { svc with cache := some (c.get (svc.build_cache_key (svc.resolve_system_prompt system_prompt) prompt) now).2 }
        ((c.get (svc.build_cache_key (svc.resolve_system_prompt system_prompt)
          prompt) now).2)
        provider (svc.resolve_system_prompt system_prompt) prompt now v rfl hrunok
      rw [hask, hstate]
      rfl
    cases hres : (c.get (svc.build_cache_key (svc.resolve_system_prompt system_prompt)
        prompt) now).1 with
    | none => exact main (Or.inl hres)
    | some v' =>
      by_cases hv' : v' = ""
      · subst hv'
        exact main (Or.inr hres)
      · have hask2 : svc.ask provider prompt system_prompt now
            = (Except.ok v', { svc with cache := some (c.get (svc.build_cache_key (svc.resolve_system_prompt system_prompt) prompt) now).2 }, [], 0) := by
          simp only [LLMService.ask, hc, hres]
          rw [if_neg hval, if_neg hv']
        rw [hask2] at hnet
        simp at hnet

/-- C4 (amended): with caching enabled, after `ask` succeeds via the
network (at least one call) with a value `v` that is NONEMPTY after
trimming, `v` is the whitespace-trimmed text of a successful provider
attempt and is stored in the cache, and a subsequent `ask` with the same
prompt pair at any instant within the TTL returns `v` from the cache with
zero network calls, no waits, and an unchanged service state (so every
further identical call behaves the same). The nonemptiness proviso is
forced: the hit test checks truthiness, so a cached empty string is not
served (see the counterexample). -/
theorem ask_success_caches_and_serves (svc : LLMService) (c : SimpleCache String)
    (provider₁ provider₂ : ℕ → AttemptResult) (prompt : String)
    (system_prompt : Option String) (t₁ t₂ : ℚ) (v : String)
    (hc : svc.cache = some c)
    (hok : (svc.ask provider₁ prompt system_prompt t₁).1 = Except.ok v)
    (hnet : 1 ≤ (svc.ask provider₁ prompt system_prompt t₁).2.2.2)
    (hv : v ≠ "")
    (httl : t₂ ≤ t₁ + c.ttl_seconds) :
    (∃ i w, provider₁ i = AttemptResult.success w ∧ v = strip w) ∧
    (svc.ask provider₁ prompt system_prompt t₁).2.1.ask provider₂ prompt
        system_prompt t₂
      = (Except.ok v, (svc.ask provider₁ prompt system_prompt t₁).2.1, [], 0) := by
  have hinv := ask_ok_state svc c provider₁ prompt system_prompt t₁ v hc hok hnet
  have hvalid : ¬(prompt = "" ∨ strip prompt = "") := by
    intro hval
    rw [ask_empty_prompt_invalid svc provider₁ prompt system_prompt t₁ hval] at hok
    simp at hok
  refine ⟨run_attempts_ok_inv provider₁ svc.max_retries 1 "None" v hinv.1, ?_⟩
  obtain ⟨c₁, hc₁ttl, hstate⟩ :
      ∃ c₁ : SimpleCache String, c₁.ttl_seconds = c.ttl_seconds ∧
        (svc.ask provider₁ prompt system_prompt t₁).2.1
          = { svc with cache := some (c₁.set (svc.build_cache_key (svc.resolve_system_prompt system_prompt) prompt) v t₁) } :=
    ⟨(c.get (svc.build_cache_key (svc.resolve_system_prompt system_prompt) prompt)
        t₁).2,
     cache_get_ttl c _ t₁, hinv.2⟩
  rw [hstate]
  have httl' : t₂ ≤ t₁ + c₁.ttl_seconds := by
    rw [hc₁ttl]
    exact httl
  have hentry : (c₁.set (svc.build_cache_key (svc.resolve_system_prompt system_prompt) prompt) v t₁).cache (svc.build_cache_key (svc.resolve_system_prompt system_prompt) prompt) = some ⟨v, t₁ + c₁.ttl_seconds⟩ := by
    simp [SimpleCache.set]
  have hexp : (CacheEntry.mk v (t₁ + c₁.ttl_seconds)).is_expired t₂ = false := by
    simp only [CacheEntry.is_expired, decide_eq_false_iff_not, not_lt]
    exact httl'
  have hget : (c₁.set (svc.build_cache_key (svc.resolve_system_prompt system_prompt) prompt) v t₁).get (svc.build_cache_key (svc.resolve_system_prompt system_prompt) prompt) t₂ = (some v, c₁.set (svc.build_cache_key (svc.resolve_system_prompt system_prompt) prompt) v t₁) := by
    simp [SimpleCache.get, hentry, hexp]
  exact ask_hit _ _ provider₂ prompt system_prompt t₂ v rfl hvalid hget hv

/-- Empty cache with a one-hour TTL for service witnesses. -/
def cFresh : SimpleCache String :=
  ⟨3600, fun _ => none⟩

/-- Concrete caching service with constant-zero hash, so every prompt pair
maps to the cache key "0:0". -/
def svcC4 : LLMService :=
  ⟨3, "sys", fun _ => 0, some cFresh⟩

/-- Provider whose text is all whitespace, trimming to the empty string. -/
def provSpace : ℕ → AttemptResult :=
  fun _ => AttemptResult.success " "

/-- Provider answering "x" on every attempt. -/
def provX : ℕ → AttemptResult :=
  fun _ => AttemptResult.success "x"

/-- Provider answering " ok " on every attempt. -/
def provOk : ℕ → AttemptResult :=
  fun _ => AttemptResult.success " ok "

/-- Counterexample to C4 as stated: with caching enabled, a first `ask`
succeeds via the network with a provider text that trims to the empty
string (which is cached), yet the identical `ask` one second later —
well within the one-hour TTL — performs one further network call instead
of being served from the cache, returning the new provider's text. -/
theorem ask_cache_roundtrip_counterexample :
    (svcC4.ask provSpace "hi" none 0).1 = Except.ok "" ∧
    1 ≤ (svcC4.ask provSpace "hi" none 0).2.2.2 ∧
    ((svcC4.ask provSpace "hi" none 0).2.1.ask provX "hi" none 1).2.2.2 = 1 ∧
    ((svcC4.ask provSpace "hi" none 0).2.1.ask provX "hi" none 1).1
      = Except.ok "x" := by
  have h1 : (svcC4.ask provSpace "hi" none 0).1 = Except.ok "" := rfl
  have hnet : 1 ≤ (svcC4.ask provSpace "hi" none 0).2.2.2 := by decide
  have hstate := (ask_ok_state svcC4 cFresh provSpace "hi" none 0 "" rfl h1 hnet).2
  have hsimp : ({ svcC4 with cache := some ((cFresh.get (svcC4.build_cache_key (svcC4.resolve_system_prompt none) "hi") 0).2.set (svcC4.build_cache_key (svcC4.resolve_system_prompt none) "hi") "" 0) } : LLMService) = { svcC4 with cache := some (cFresh.set "0:0" "" 0) } := rfl
  rw [hsimp] at hstate
  have hget0 : ((cFresh.set "0:0" "" 0).get "0:0" 1).1 = some "" := by
    have hentry : (cFresh.set "0:0" "" 0).cache "0:0" = some ⟨"", (3600 : ℚ)⟩ := by
      simp [SimpleCache.set, cFresh]
    have hexp : (CacheEntry.mk "" (3600 : ℚ)).is_expired 1 = false := by
      simp only [CacheEntry.is_expired, decide_eq_false_iff_not, not_lt]
      norm_num
    simp [SimpleCache.get, hentry, hexp]
  have h2 := ask_cached_empty_goes_to_network
    { svcC4 with cache := some (cFresh.set "0:0" "" 0) } (cFresh.set "0:0" "" 0)
    provX "hi" none 1 rfl (by decide) hget0 (by decide)
  refine ⟨h1, hnet, ?_, ?_⟩
  · rw [hstate, h2.2.1]
    rfl
  · rw [hstate, h2.1]
    rfl

/-- Witness for the amended C4: a first call succeeding with " ok " caches
"ok", and the identical call one second later is served from the cache
unchanged, with zero network calls. -/
theorem ask_success_caches_and_serves_witness :
    (∃ i w, provOk i = AttemptResult.success w ∧ "ok" = strip w) ∧
    (svcC4.ask provOk "hi" none 0).2.1.ask provX "hi" none 1
      = (Except.ok "ok", (svcC4.ask provOk "hi" none 0).2.1, [], 0) :=
  ask_success_caches_and_serves svcC4 cFresh provOk provX "hi" none 0 1 "ok"
    rfl rfl (by decide) (by decide) (by norm_num [cFresh])
